import Mathlib

/-!
Verification of the racepump repository's inbound headline-extraction /
delivery pipeline (scripts/monitor_news_group.py) and outbound caption
composition (scripts/send_telegram_race_results.py,
scripts/send_telegram_post.py).

Python strings are modelled as Lean `String` (sequences of characters);
slicing, stripping, splitting and containment are re-implemented below with
Python's semantics.  Python's `str.strip` family strips a handful of exotic
Unicode whitespace characters besides the ASCII ones; only the ASCII ones are
modelled, which is faithful for every behaviour discussed here.
-/

/-- Whitespace test used by Python's str.strip / str.split: the six ASCII
whitespace characters. -/
def pyIsSpace (c : Char) : Bool :=
  c = ' ' || c = '\t' || c = '\n' || c = '\r' || c = '\x0b' || c = '\x0c'

/-- Python `s.rstrip()`: drop trailing whitespace. -/
def pyRstrip (s : String) : String :=
  ⟨(s.data.reverse.dropWhile pyIsSpace).reverse⟩

/-- Python `s.lstrip()`: drop leading whitespace. -/
def pyLstrip (s : String) : String :=
  ⟨s.data.dropWhile pyIsSpace⟩

/-- Python `s.strip()`. -/
def pyStrip (s : String) : String :=
  pyLstrip (pyRstrip s)

/-- Python `s[:n]` for a nonnegative bound: the first `n` characters. -/
def pySlice (s : String) (n : Nat) : String :=
  ⟨s.data.take n⟩

/-- Helper for Python `s.split('\n')`: accumulates the current (reversed)
line while scanning. -/
def splitLinesAux : List Char → List Char → List String
  | [], acc => [⟨acc.reverse⟩]
  | c :: cs, acc =>
    if c = '\n' then (⟨acc.reverse⟩ : String) :: splitLinesAux cs []
    else splitLinesAux cs (c :: acc)

/-- Python `s.split('\n')` (single-character separator, empties kept). -/
def pySplitNl (s : String) : List String :=
  splitLinesAux s.data []

/-- The Python expression `lines[0] if lines else text` specialised to
`lines = s.split('\n')`: the first line of `s`.  (`split` never returns an
empty list, so the fallback never fires.) -/
def firstLineOf (s : String) : String :=
  match pySplitNl s with
  | [] => s
  | l :: _ => l

/-- Helper for Python `s.split()` (split on whitespace runs, dropping
empties); `acc` is the reversed current word. -/
def pyWordsAux : List Char → List Char → List String
  | [], acc => if acc.isEmpty then [] else [⟨acc.reverse⟩]
  | c :: cs, acc =>
    if pyIsSpace c then
      if acc.isEmpty then pyWordsAux cs []
      else (⟨acc.reverse⟩ : String) :: pyWordsAux cs []
    else pyWordsAux cs (c :: acc)

/-- Python `s.split()` with no argument. -/
def pySplitWs (s : String) : List String :=
  pyWordsAux s.data []

/-- Python `s.startswith(p)`. -/
def pyStartsWith (s p : String) : Bool :=
  p.data.isPrefixOf s.data

/-- Substring search on character lists: does `p` occur contiguously in
`l`? -/
def containsSub : List Char → List Char → Bool
  | [], p => p.isEmpty
  | c :: t, p => p.isPrefixOf (c :: t) || containsSub t p

/-- Python `p in s` for strings. -/
def pyInStr (p s : String) : Bool :=
  containsSub s.data p.data

/-- Python truthiness of an optional string (`None` and `''` are falsy). -/
def optTruthy : Option String → Bool
  | none => false
  | some s => s != ""

/-! ## monitor_news_group.py -/

/-- The payload forwarded to the server by `handle_new_message`: the
headline, and the final value of the handler's `url` variable (`none`
models Python `None`; note `some ""` is possible and is distinct from
`none` inside the handler even though both are omitted from the wire
payload by the `if url:` truthiness test in `send_to_server`). -/
structure ForwardRequest where
  headline : String
  url : Option String
deriving DecidableEq

/-- The entity loop of `handle_new_message`: a message entity is modelled by
`Option String` — `some u` when the entity has a `url` attribute with string
value `u`, `none` when it has no such attribute.  The loop takes the url of
the first entity that has the attribute and breaks. -/
def entityUrl : List (Option String) → Option String
  | [] => none
  | some u :: _ => some u
  | none :: rest => entityUrl rest

/-- The text-scanning loop of `handle_new_message`: first whitespace-token of
the text that starts with `http://` or `https://`. -/
def scanTextUrl : List String → Option String
  | [] => none
  | w :: rest =>
    if pyStartsWith w "http://" || pyStartsWith w "https://" then some w
    else scanTextUrl rest

/-- URL extraction of `handle_new_message` (lines 107-120): entity loop,
then — only when the resulting `url` is falsy and the text contains
`http://` or `https://` — the word scan, which leaves `url` unchanged when
it finds nothing. -/
def extract_url (entities : List (Option String)) (text : String) : Option String :=
  let url := entityUrl entities
  if !optTruthy url && (pyInStr "http://" text || pyInStr "https://" text) then
    match scanTextUrl (pySplitWs text) with
    | some w => some w
    | none => url
  else url

/-- The message handler of monitor_news_group.py (lines 91-125), as a pure
function of the message text and its entities: `none` models the early
`return` on whitespace-only text (no forward call is made); `some fr` means
`send_to_server` is called with `fr`'s fields. -/
def handle_new_message (text : String) (entities : List (Option String)) :
    Option ForwardRequest :=
  if pyStrip text = "" then none
  else
    let headline := firstLineOf (pyStrip text)
    let headline := pySlice headline 200
    some ⟨headline, extract_url entities text⟩

/-- Outcome of the HTTP POST attempted by `send_to_server`: either a
response with a status code and body, or a transport-level failure raised as
an exception. -/
inductive HttpOutcome where
  | resp (status : Nat) (body : String)
  | transportError (message : String)

/-- `send_to_server` (lines 34-56): returns `True` exactly on an HTTP 200
response; any other status logs and returns `False`, and the surrounding
`try/except` converts any transport exception into a logged `False`.  The
function issues a single POST (no retry loop) and, being total here, never
propagates an exception to its caller. -/
def send_to_server (outcome : HttpOutcome) : Bool :=
  match outcome with
  | .resp status _ => status == 200
  | .transportError _ => false

/-! ## send_telegram_race_results.py — JSON model

A value parsed by Python's `json.load`: JSON `null` becomes Python `None`
(constructor `null` below, which also stands for the `None` default of
`dict.get`), numbers become `int` or `float`, and containers become lists
and dicts.  Python floats are modelled as exact decimals `m * 10 ^ (-e)`:
every float literal appearing in a JSON document denotes such a decimal,
`repr`/`str` of the resulting double is (for inputs of reasonable
precision) that same decimal, and `%.2f` formatting agrees with decimal
round-half-even except at exact decimal ties, which binary doubles cannot
hit. -/

inductive JVal where
  | null
  | bool (b : Bool)
  | int (n : Int)
  | float (m : Int) (e : Nat)
  | str (s : String)
  | arr (items : List JVal)
  | obj (fields : List (String × JVal))

/-- A Python dict produced by `json.load`: key/value pairs in document
order (with duplicate keys, the last occurrence wins, as in `json.load`). -/
abbrev JDict := List (String × JVal)

/-- Lookup helper for `jget`: value of the last pair with the given key. -/
def jfind : JDict → String → Option JVal
  | [], _ => none
  | (k0, v) :: rest, k =>
    match jfind rest k with
    | some w => some w
    | none => if k0 = k then some v else none

/-- Python `d.get(k)`: the stored value, or `None` when the key is absent. -/
def jget (d : JDict) (k : String) : JVal :=
  (jfind d k).getD .null

/-- Python truthiness of a JSON-derived value. -/
def jtruthy : JVal → Bool
  | .null => false
  | .bool b => b
  | .int n => n != 0
  | .float m _ => m != 0
  | .str s => s != ""
  | .arr items => !items.isEmpty
  | .obj fields => !fields.isEmpty

/-- Python `a or b`: `a` when truthy, else `b`. -/
def jor (a b : JVal) : JVal :=
  if jtruthy a then a else b

/-- Python `v is None`. -/
def isNull : JVal → Bool
  | .null => true
  | _ => false

/-- Is the value a dict (`isinstance(v, dict)`)? -/
def isObjV : JVal → Bool
  | .obj _ => true
  | _ => false

/-- The pattern `winner.get(k) if isinstance(winner, dict) else None`. -/
def dictGetIf (v : JVal) (k : String) : JVal :=
  match v with
  | .obj w => jget w k
  | _ => .null

/-! Record-update helpers used only to state theorems about presence and
absence of fields. -/

/-- Remove every pair with the given key. -/
def delK : JDict → String → JDict
  | [], _ => []
  | (k0, v) :: rest, k =>
    if k0 = k then delK rest k else (k0, v) :: delK rest k

/-- Set the key to the given value (removing earlier occurrences). -/
def setK (d : JDict) (k : String) (v : JVal) : JDict :=
  delK d k ++ [(k, v)]

/-! ### Numeric formatting (`format_money`) -/

/-- Digits-to-Nat accumulator; fails on a non-digit. -/
def natOfDigitsAux : List Char → Nat → Option Nat
  | [], acc => some acc
  | c :: cs, acc =>
    if c.isDigit then natOfDigitsAux cs (acc * 10 + (c.toNat - 48)) else none

/-- Parse an unsigned decimal `digits [. digits]` (at least one digit in
total) as an exact decimal `(m, e)` with value `m * 10 ^ (-e)`. -/
def parseUnsignedDec (l : List Char) : Option (Int × Nat) :=
  let intPart := l.takeWhile (fun c => c ≠ '.')
  match l.dropWhile (fun c => c ≠ '.') with
  | [] =>
    if intPart.isEmpty then none
    else (natOfDigitsAux intPart 0).map (fun n => ((n : Int), 0))
  | _ :: fracPart =>
    if intPart.isEmpty && fracPart.isEmpty then none
    else
      match natOfDigitsAux intPart 0, natOfDigitsAux fracPart 0 with
      | some i, some f => some (((i * 10 ^ fracPart.length + f : Nat) : Int), fracPart.length)
      | _, _ => none

/-- Parse a signed decimal string. -/
def parseDecimal (s : String) : Option (Int × Nat) :=
  match s.data with
  | '+' :: rest => parseUnsignedDec rest
  | '-' :: rest => (parseUnsignedDec rest).map (fun p => (-p.1, p.2))
  | l => parseUnsignedDec l

/-- Python `float(value)` on a JSON-derived value, as an exact decimal:
numbers and bools convert; strings are parsed as simple signed decimals
after stripping surrounding whitespace (exponents, `inf`/`nan` and digit
underscores are not modelled — no claim exercises them); `None`, lists and
dicts raise `TypeError`, modelled as `none`. -/
def pyFloat : JVal → Option (Int × Nat)
  | .null => none
  | .bool b => some (if b then (1, 0) else (0, 0))
  | .int n => some (n, 0)
  | .float m e => some (m, e)
  | .str s => parseDecimal (pyStrip s)
  | .arr _ => none
  | .obj _ => none

/-- Round the fraction `num / den` (`den > 0`) to the nearest integer, ties
to even (the rounding performed by `%.2f` formatting on the scaled
value). -/
def roundHalfEvenInt (num den : Int) : Int :=
  let fl := num.fdiv den
  let r2 := 2 * (num - fl * den)
  if r2 < den then fl
  else if den < r2 then fl + 1
  else if fl % 2 = 0 then fl else fl + 1

/-- Insert a comma every three digits; input and output are
least-significant-first digit lists. -/
def group3 : List Char → List Char
  | a :: b :: c :: d :: rest => a :: b :: c :: ',' :: group3 (d :: rest)
  | l => l

/-- Decimal digits of a natural number with thousands separators. -/
def commaGroup (n : Nat) : String :=
  ⟨(group3 ((Nat.toDigits 10 n).reverse)).reverse⟩

/-- Two-digit zero-padded rendering of `k < 100`. -/
def twoDigits (k : Nat) : String :=
  ⟨[Char.ofNat (48 + k / 10 % 10), Char.ofNat (48 + k % 10)]⟩

/-- Python `f"{number:,.2f}"` of the decimal `m * 10 ^ (-e)`: sign,
thousands-grouped integer part, and two fractional digits, rounding
half-to-even at two decimals. -/
def commaFmt2 (m : Int) (e : Nat) : String :=
  let neg := m < 0
  let cents := (roundHalfEvenInt ((m.natAbs * 100 : Nat) : Int) ((10 ^ e : Nat) : Int)).toNat
  (if neg then "-" else "") ++ commaGroup (cents / 100) ++ "." ++ twoDigits (cents % 100)

/-- `format_money` (send_telegram_race_results.py lines 44-49): `None` when
`float(value)` raises, otherwise the currency rendering `f"${number:,.2f}"`. -/
def format_money (value : JVal) : Option String :=
  (pyFloat value).map (fun p => "$" ++ commaFmt2 p.1 p.2)

/-! ### Python `str` / `repr` of JSON-derived values -/

/-- Normalise a decimal `(m, e)` by removing trailing zero digits of the
fraction, giving the shortest equal decimal. -/
def decReduce : Int → Nat → Int × Nat
  | m, 0 => (m, 0)
  | m, e + 1 => if m % 10 = 0 then decReduce (m / 10) e else (m, e + 1)

/-- Digit string of `m / 10^k` with an explicit decimal point, `k ≥ 1`. -/
def decPointStr (m : Int) (k : Nat) : String :=
  let ds := Nat.toDigits 10 m.natAbs
  let ds := (List.replicate (k + 1 - ds.length) '0') ++ ds
  (if m < 0 then "-" else "") ++ ⟨ds.take (ds.length - k)⟩ ++ "." ++ ⟨ds.drop (ds.length - k)⟩

/-- Python `str`/`repr` of a float, modelled as the shortest decimal
rendering of the value (always with a decimal point, e.g. `5.0`).
Exponent notation for very large/small magnitudes is not modelled. -/
def floatStr (m : Int) (e : Nat) : String :=
  match decReduce m e with
  | (m', 0) => toString m' ++ ".0"
  | (m', k) => decPointStr m' k

/-- Escape one character for Python string `repr` with the given quote
character (backslash, the quote and the common control characters;
`\\xNN`-escaping of other non-printables is not modelled — no claim
stringifies such data). -/
def strReprEsc (quote : Char) (c : Char) : String :=
  if c = '\\' then "\\\\"
  else if c = quote then "\\" ++ ⟨[quote]⟩
  else if c = '\n' then "\\n"
  else if c = '\r' then "\\r"
  else if c = '\t' then "\\t"
  else ⟨[c]⟩

/-- Python `repr` of a string: single-quoted, switching to double quotes
when the text contains a single quote but no double quote. -/
def strRepr (s : String) : String :=
  let q : Char :=
    if s.data.contains (Char.ofNat 39) && !s.data.contains (Char.ofNat 34)
    then Char.ofNat 34 else Char.ofNat 39
  ⟨[q]⟩ ++ String.join (s.data.map (strReprEsc q)) ++ ⟨[q]⟩

mutual

/-- Python `repr` of a JSON-derived value. -/
def pyRepr : JVal → String
  | .null => "None"
  | .bool b => if b then "True" else "False"
  | .int n => toString n
  | .float m e => floatStr m e
  | .str s => strRepr s
  | .arr items => "[" ++ String.intercalate ", " (pyReprList items) ++ "]"
  | .obj fields => "\x7b" ++ String.intercalate ", " (pyReprFields fields) ++ "\x7d"

/-- `repr` of each element of a list. -/
def pyReprList : List JVal → List String
  | [] => []
  | v :: rest => pyRepr v :: pyReprList rest

/-- `repr` of each `key: value` pair of a dict. -/
def pyReprFields : List (String × JVal) → List String
  | [] => []
  | (k, v) :: rest => (strRepr k ++ ": " ++ pyRepr v) :: pyReprFields rest

end

/-- Python `str(v)` (also what an f-string interpolation produces): the
string itself for strings, `repr` otherwise. -/
def pyStr : JVal → String
  | .str s => s
  | v => pyRepr v

/-! ### build_caption_from_json (lines 52-172)

The function is split here into one definition per contiguous block of the
source, each producing the list of lines that block appends; the blocks are
concatenated in source order.  `d` is the dict loaded from the JSON file. -/

/-- Title block (lines 58-60). -/
def titleLines (d : JDict) : List String :=
  let race_name := jor (jget d "race_name") (jor (jget d "name") (jget d "title"))
  if jtruthy race_name then [pyStr race_name] else []

/-- Metadata block (lines 62-80). -/
def metaLines (d : JDict) : List String :=
  let date_value := jor (jget d "date") (jor (jget d "datetime") (jget d "timestamp"))
  let distance := jget d "distance"
  let surface := jget d "surface"
  let track := jor (jget d "track") (jget d "venue")
  let meta_parts :=
    (if jtruthy date_value then ["Date: " ++ pyStr date_value] else []) ++
    (if jtruthy track then ["Track: " ++ pyStr track] else [])
  let dist_surf :=
    (if jtruthy distance then [pyStr distance] else []) ++
    (if jtruthy surface then [pyStr surface] else [])
  let meta_parts := meta_parts ++
    (if !dist_surf.isEmpty
     then ["Distance/Surface: " ++ String.intercalate " " dist_surf] else [])
  if !meta_parts.isEmpty then [String.intercalate " | " meta_parts] else []

/-- The handler's `winner` variable: `data.get("winner") or {}` (line 82). -/
def winnerVal (d : JDict) : JVal :=
  jor (jget d "winner") (.obj [])

/-- Winner block (lines 82-112). -/
def winnerLines (d : JDict) : List String :=
  let winner := winnerVal d
  let winner_name := dictGetIf winner "name"
  let winner_number :=
    jor (dictGetIf winner "number") (jor (dictGetIf winner "no") (dictGetIf winner "post"))
  let winner_odds := dictGetIf winner "odds"
  let winner_time := jor (dictGetIf winner "time") (dictGetIf winner "final_time")
  let overall_time := jor (jget d "time") (jget d "final_time")
  let odds := jget d "odds"
  let time_to_show := jor winner_time overall_time
  let odds_to_show := jor winner_odds odds
  if jtruthy winner_name || jtruthy winner_number ||
     jtruthy time_to_show || jtruthy odds_to_show then
    let winner_bits :=
      (if !isNull winner_number && jtruthy winner_name then
        ["Winner: #" ++ pyStr winner_number ++ " " ++ pyStr winner_name]
      else if jtruthy winner_name then
        ["Winner: " ++ pyStr winner_name]
      else if !isNull winner_number then
        ["Winner: #" ++ pyStr winner_number]
      else []) ++
      (if jtruthy time_to_show then ["Time: " ++ pyStr time_to_show] else []) ++
      (if jtruthy odds_to_show then ["Odds: " ++ pyStr odds_to_show] else [])
    if !winner_bits.isEmpty then [String.intercalate "  " winner_bits] else []
  else []

/-- Personnel block (lines 114-125); winner-sub-record fields fall back to
top-level fields. -/
def personnelLines (d : JDict) : List String :=
  let winner := winnerVal d
  let jockey := jor (dictGetIf winner "jockey") (jget d "jockey")
  let trainer := jor (dictGetIf winner "trainer") (jget d "trainer")
  let owner := jor (dictGetIf winner "owner") (jget d "owner")
  let details_bits :=
    (if jtruthy jockey then ["Jockey: " ++ pyStr jockey] else []) ++
    (if jtruthy trainer then ["Trainer: " ++ pyStr trainer] else []) ++
    (if jtruthy owner then ["Owner: " ++ pyStr owner] else [])
  if !details_bits.isEmpty then [String.intercalate "  " details_bits] else []

/-- Payouts block (lines 127-140). -/
def payoutLines (d : JDict) : List String :=
  let payouts := jor (jget d "payouts") (.obj [])
  match payouts with
  | .obj p =>
    if !p.isEmpty then
      let win_str := format_money (jget p "win")
      let place_str := format_money (jget p "place")
      let show_str := format_money (jget p "show")
      let payout_bits :=
        (if optTruthy win_str then ["W " ++ win_str.getD ""] else []) ++
        (if optTruthy place_str then ["P " ++ place_str.getD ""] else []) ++
        (if optTruthy show_str then ["S " ++ show_str.getD ""] else [])
      if !payout_bits.isEmpty
      then ["Payouts: " ++ String.intercalate ", " payout_bits] else []
    else []
  | _ => []

/-- One iteration of the results loop (lines 145-163): `[]` when the entry
is skipped (a non-dict raises `AttributeError`, caught by `continue`, or no
part qualifies), otherwise the single formatted line. -/
def resultLineOf (item : JVal) : List String :=
  match item with
  | .obj it =>
    let pos := jor (jget it "position") (jor (jget it "pos") (jget it "rank"))
    let num := jor (jget it "number") (jor (jget it "no") (jget it "post"))
    let name := jget it "name"
    let i_odds := jget it "odds"
    let parts :=
      (if !isNull pos then [pyStr pos ++ ")"] else []) ++
      (if !isNull num then ["#" ++ pyStr num] else []) ++
      (if jtruthy name then [pyStr name] else []) ++
      (if jtruthy i_odds then ["(" ++ pyStr i_odds ++ ")"] else [])
    if !parts.isEmpty then [String.intercalate " " parts] else []
  | _ => []

/-- Results block (lines 142-163). -/
def resultsLines (d : JDict) : List String :=
  let results := jor (jget d "results") (jor (jget d "order") (jget d "finishers"))
  match results with
  | .arr items =>
    if !items.isEmpty then "Results:" :: (items.map resultLineOf).flatten else []
  | _ => []

/-- Notes block (lines 165-167). -/
def notesLines (d : JDict) : List String :=
  let notes := jget d "notes"
  if jtruthy notes then ["Notes: " ++ pyStr notes] else []

/-- All caption lines in source order, then `"\n".join(lines).strip()`
(line 169): the caption before the length bound is applied. -/
def naturalCaption (d : JDict) : String :=
  pyStrip (String.intercalate "\n"
    (titleLines d ++ metaLines d ++ winnerLines d ++ personnelLines d ++
     payoutLines d ++ resultsLines d ++ notesLines d))

/-- The caption length bound (lines 33 and 170-171, repeated verbatim at
lines 185-186 and in send_telegram_post.py lines 72-73): over 1024
characters, keep the first `1024 - 4` characters, strip trailing
whitespace, and append `" ..."`. -/
def truncateCaption (s : String) : String :=
  if s.length > 1024 then pyRstrip (pySlice s (1024 - 4)) ++ " ..." else s

/-- `build_caption_from_json` (lines 52-172). -/
def build_caption_from_json (d : JDict) : String :=
  truncateCaption (naturalCaption d)

/-- The `final` string of `resolve_caption` before its length bound
(lines 176-181): optional direct caption (kept when truthy, stripped),
optional JSON-built caption, non-empty parts joined by a blank line, then
stripped.  A supplied `--json` path is modelled by the dict it loads. -/
def naturalResolved (caption_text : Option String) (jd : Option JDict) : String :=
  let built :=
    (match caption_text with
      | some t => if t != "" then [pyStrip t] else []
      | none => []) ++
    (match jd with
      | some d => [build_caption_from_json d]
      | none => [])
  pyStrip (String.intercalate "\n\n" (built.filter (fun b => b != "")))

/-- `resolve_caption` (lines 175-187): `none` models the `sys.exit(2)` on an
empty result. -/
def resolve_caption (caption_text : Option String) (jd : Option JDict) :
    Option String :=
  let final := naturalResolved caption_text jd
  if final = "" then none else some (truncateCaption final)

/-! ## send_telegram_post.py — direct caption path -/

/-- Replace every non-overlapping occurrence of `p` (non-empty) by `r`,
scanning left to right. -/
def replAux (l p r : List Char) : List Char :=
  match l with
  | [] => []
  | c :: rest =>
    if p ≠ [] ∧ p.isPrefixOf (c :: rest) then
      r ++ replAux (rest.drop (p.length - 1)) p r
    else c :: replAux rest p r
termination_by l.length
decreasing_by
  · simp only [List.length_drop, List.length_cons]
    omega
  · simp

/-- Python `s.replace(p, r)` for non-empty `p`. -/
def pyReplace (s p r : String) : String :=
  ⟨replAux s.data p.data r.data⟩

/-- `escape_html` (send_telegram_post.py lines 41-47). -/
def escape_html (text : String) : String :=
  pyReplace (pyReplace (pyReplace text "&" "&amp;") "<" "&lt;") ">" "&gt;"

/-- The caption prepared by `async_main` (send_telegram_post.py lines
67-70) before the length bound: strip when the argument is truthy, then
optionally HTML-escape. -/
def naturalPost (caption_arg : String) (esc : Bool) : String :=
  let caption := if caption_arg != "" then pyStrip caption_arg else ""
  if esc then escape_html caption else caption

/-- The caption actually attached by send_telegram_post.py (lines 67-73). -/
def post_caption (caption_arg : String) (esc : Bool) : String :=
  truncateCaption (naturalPost caption_arg esc)

/-! ## Concrete inputs used in witnesses and counterexamples -/

/-- A direct caption of 1030 characters whose character 1020 is a space:
1019 `a`s, one space, ten `b`s. -/
def cexSpacedText : String :=
  ⟨List.replicate 1019 'a' ++ ' ' :: List.replicate 10 'b'⟩

/-- A direct caption of 1030 `a`s (no internal whitespace). -/
def longPlainText : String :=
  ⟨List.replicate 1030 'a'⟩

/-- A record whose notes line alone exceeds the caption budget. -/
def longNotesRecord : JDict :=
  [("notes", JVal.str ⟨List.replicate 1100 'a'⟩)]

/-- A first line of 201 `x`s. -/
def longLineText : String :=
  ⟨List.replicate 201 'x'⟩

/-! ## Auxiliary lemmas -/

theorem length_dropWhile_le (p : Char → Bool) (l : List Char) :
    (l.dropWhile p).length ≤ l.length := by
  induction l with
  | nil => simp
  | cons c t ih =>
    by_cases h : p c
    · simp [List.dropWhile, h]; omega
    · simp [List.dropWhile, h]

theorem pyRstrip_length_le (s : String) : (pyRstrip s).length ≤ s.length := by
  show ((s.data.reverse.dropWhile pyIsSpace).reverse).length ≤ s.data.length
  rw [List.length_reverse]
  calc (s.data.reverse.dropWhile pyIsSpace).length
      ≤ s.data.reverse.length := length_dropWhile_le ..
    _ = s.data.length := List.length_reverse ..

theorem pyStrip_length_le (s : String) : (pyStrip s).length ≤ s.length := by
  calc (pyStrip s).length
      = ((pyRstrip s).data.dropWhile pyIsSpace).length := rfl
    _ ≤ (pyRstrip s).length := length_dropWhile_le ..
    _ ≤ s.length := pyRstrip_length_le ..

theorem pySlice_length (s : String) (n : Nat) :
    (pySlice s n).length = min n s.length := by
  show (s.data.take n).length = _
  exact List.length_take ..

theorem pySlice_of_length_le (s : String) (n : Nat) (h : s.length ≤ n) :
    pySlice s n = s := by
  show (⟨s.data.take n⟩ : String) = s
  rw [List.take_of_length_le h]

theorem truncateCaption_length_le (s : String) :
    (truncateCaption s).length ≤ 1024 := by
  unfold truncateCaption
  by_cases h : s.length > 1024
  · rw [if_pos h, String.length_append]
    have h1 : (pySlice s (1024 - 4)).length ≤ 1024 - 4 := by
      rw [pySlice_length]; omega
    have h2 := pyRstrip_length_le (pySlice s (1024 - 4))
    have h3 : (" ..." : String).length = 4 := rfl
    omega
  · rw [if_neg h]; omega

theorem truncateCaption_of_gt (s : String) (h : 1024 < s.length) :
    truncateCaption s = pyRstrip (pySlice s (1024 - 4)) ++ " ..." := by
  unfold truncateCaption
  rw [if_pos h]

theorem splitLinesAux_shape (l acc : List Char) :
    ∃ h t pre post, splitLinesAux l acc = h :: t ∧ l = pre ++ post ∧
      h.data = acc.reverse ++ pre := by
  induction l generalizing acc with
  | nil => exact ⟨⟨acc.reverse⟩, [], [], [], rfl, rfl, by simp⟩
  | cons c cs ih =>
    by_cases hc : c = '\n'
    · refine ⟨⟨acc.reverse⟩, splitLinesAux cs [], [], c :: cs, ?_, by simp, by simp⟩
      simp [splitLinesAux, hc]
    · obtain ⟨h, t, pre, post, h1, h2, h3⟩ := ih (c :: acc)
      refine ⟨h, t, c :: pre, post, ?_, by simp [h2], ?_⟩
      · simp [splitLinesAux, hc, h1]
      · simp [h3]

theorem firstLineOf_spec (s : String) :
    ∃ post, s.data = (firstLineOf s).data ++ post := by
  obtain ⟨h, t, pre, post, h1, h2, h3⟩ := splitLinesAux_shape s.data []
  refine ⟨post, ?_⟩
  unfold firstLineOf pySplitNl
  rw [h1]
  simp only [List.reverse_nil, List.nil_append] at h3
  rw [h3, ← h2]

theorem firstLineOf_length_le (s : String) :
    (firstLineOf s).length ≤ s.length := by
  obtain ⟨post, hp⟩ := firstLineOf_spec s
  have : s.data.length = (firstLineOf s).data.length + post.length := by
    rw [hp, List.length_append]
  show (firstLineOf s).data.length ≤ s.data.length
  omega

theorem isPrefixOf_append_right (p t : List Char) :
    p.isPrefixOf (p ++ t) = true := by
  induction p with
  | nil => simp [List.isPrefixOf]
  | cons a as ih => simp [List.isPrefixOf, ih]

theorem take_isPrefixOf (l : List Char) (n : Nat) :
    (l.take n).isPrefixOf l = true := by
  have := isPrefixOf_append_right (l.take n) (l.drop n)
  rwa [List.take_append_drop] at this

theorem isPrefixOf_ex {p l : List Char} (h : p.isPrefixOf l = true) :
    ∃ r, l = p ++ r := by
  induction p generalizing l with
  | nil => exact ⟨l, rfl⟩
  | cons a as ih =>
    cases l with
    | nil => simp [List.isPrefixOf] at h
    | cons b bs =>
      simp only [List.isPrefixOf, Bool.and_eq_true, beq_iff_eq] at h
      obtain ⟨h1, h2⟩ := h
      obtain ⟨r, hr⟩ := ih h2
      exact ⟨r, by simp [h1, hr]⟩

theorem containsSub_nil_pat (l : List Char) : containsSub l [] = true := by
  cases l <;> simp [containsSub, List.isPrefixOf]

theorem containsSub_cons (c : Char) (l p : List Char) :
    containsSub (c :: l) p = (p.isPrefixOf (c :: l) || containsSub l p) := rfl

theorem containsSub_append (s p t : List Char) :
    containsSub (s ++ (p ++ t)) p = true := by
  induction s with
  | nil =>
    cases p with
    | nil => simpa using containsSub_nil_pat t
    | cons a as =>
      simp only [List.nil_append, List.cons_append, containsSub_cons]
      have h2 : (a :: as).isPrefixOf (a :: (as ++ t)) = true :=
        isPrefixOf_append_right (a :: as) t
      rw [h2]
      simp
  | cons c s' ih =>
    simp only [List.cons_append, containsSub_cons]
    rw [ih]
    simp

theorem pyWordsAux_mem {l acc : List Char} {w : String} (h : w ∈ pyWordsAux l acc) :
    ∃ s t, acc.reverse ++ l = s ++ w.data ++ t := by
  induction l generalizing acc with
  | nil =>
    by_cases ha : acc.isEmpty
    · simp [pyWordsAux, ha] at h
    · simp only [pyWordsAux, ha, Bool.false_eq_true, if_false, List.mem_singleton] at h
      subst h
      exact ⟨[], [], by simp⟩
  | cons c cs ih =>
    by_cases hc : pyIsSpace c
    · by_cases ha : acc.isEmpty
      · simp only [pyWordsAux, hc, ha, if_true] at h
        obtain ⟨s, t, hst⟩ := ih h
        simp only [List.reverse_nil, List.nil_append] at hst
        refine ⟨acc.reverse ++ c :: s, t, ?_⟩
        simp [hst, List.append_assoc]
      · simp only [pyWordsAux, hc, ha, Bool.false_eq_true, if_false, if_true,
          List.mem_cons] at h
        rcases h with h | h
        · subst h
          exact ⟨[], c :: cs, by simp⟩
        · obtain ⟨s, t, hst⟩ := ih h
          simp only [List.reverse_nil, List.nil_append] at hst
          refine ⟨acc.reverse ++ c :: s, t, ?_⟩
          simp [hst, List.append_assoc]
    · simp only [pyWordsAux, hc, Bool.false_eq_true, if_false] at h
      obtain ⟨s, t, hst⟩ := ih h
      refine ⟨s, t, ?_⟩
      simp only [List.reverse_cons] at hst
      simpa [List.append_assoc] using hst

theorem scanTextUrl_mem {ws : List String} {w : String}
    (h : scanTextUrl ws = some w) :
    w ∈ ws ∧ (pyStartsWith w "http://" || pyStartsWith w "https://") = true := by
  induction ws with
  | nil => simp [scanTextUrl] at h
  | cons x rest ih =>
    by_cases hx : (pyStartsWith x "http://" || pyStartsWith x "https://") = true
    · rw [scanTextUrl, if_pos hx] at h
      cases h
      exact ⟨List.mem_cons_self .., hx⟩
    · rw [scanTextUrl, if_neg hx] at h
      obtain ⟨h1, h2⟩ := ih h
      exact ⟨List.mem_cons_of_mem _ h1, h2⟩

theorem scan_implies_contains {text w : String}
    (h : scanTextUrl (pySplitWs text) = some w) :
    (pyInStr "http://" text || pyInStr "https://" text) = true := by
  obtain ⟨hmem, hstart⟩ := scanTextUrl_mem h
  obtain ⟨s, t, hst⟩ := pyWordsAux_mem hmem
  simp only [List.reverse_nil, List.nil_append] at hst
  rcases Bool.or_eq_true_iff.mp hstart with h1 | h1
  · obtain ⟨r, hr⟩ := isPrefixOf_ex h1
    have : containsSub text.data ("http://" : String).data = true := by
      have h2 := containsSub_append s ("http://" : String).data (r ++ t)
      have h3 : text.data = s ++ (("http://" : String).data ++ (r ++ t)) := by
        rw [hst, hr]; simp [List.append_assoc]
      rw [h3]; exact h2
    unfold pyInStr
    rw [this]; simp
  · obtain ⟨r, hr⟩ := isPrefixOf_ex h1
    have : containsSub text.data ("https://" : String).data = true := by
      have h2 := containsSub_append s ("https://" : String).data (r ++ t)
      have h3 : text.data = s ++ (("https://" : String).data ++ (r ++ t)) := by
        rw [hst, hr]; simp [List.append_assoc]
      rw [h3]; exact h2
    unfold pyInStr
    rw [this]; simp

/-! ## Claim theorems: inbound pipeline -/

/-- Claim C3: for every raw event text of at most 200 characters whose
trimmed text is non-empty, the extracted headline equals the first line of
the trimmed text verbatim (no truncation artifact).  ("Trimmed first line"
reads as the first line of the trimmed text, which is what
`text.strip().split('\n')[0]` computes.) -/
theorem headline_short_text_verbatim (text : String) (es : List (Option String))
    (hlen : text.length ≤ 200) (hne : pyStrip text ≠ "") :
    ∃ fr, handle_new_message text es = some fr ∧
      fr.headline = firstLineOf (pyStrip text) := by
  refine ⟨⟨pySlice (firstLineOf (pyStrip text)) 200, extract_url es text⟩, ?_, ?_⟩
  · unfold handle_new_message
    rw [if_neg hne]
  · show pySlice (firstLineOf (pyStrip text)) 200 = firstLineOf (pyStrip text)
    exact pySlice_of_length_le _ _
      (le_trans (firstLineOf_length_le _) (le_trans (pyStrip_length_le _) hlen))

/-- Claim C3 witness at a concrete two-line message. -/
theorem headline_short_text_verbatim_witness :
    ∃ fr, handle_new_message "Breaking news\nmore text" [] = some fr ∧
      fr.headline = firstLineOf (pyStrip "Breaking news\nmore text") :=
  headline_short_text_verbatim "Breaking news\nmore text" [] (by decide) (by decide)

/-- Claim C4: whenever the first line of the trimmed raw text exceeds 200
characters, the extracted headline has length exactly 200 and is a prefix of
that line; and for every forwarded event the headline never exceeds 200
characters. -/
theorem headline_long_first_line_truncated :
    (∀ (text : String) (es : List (Option String)),
      200 < (firstLineOf (pyStrip text)).length →
      ∃ fr, handle_new_message text es = some fr ∧ fr.headline.length = 200 ∧
        fr.headline.data.isPrefixOf (firstLineOf (pyStrip text)).data = true) ∧
    (∀ (text : String) (es : List (Option String)) (fr : ForwardRequest),
      handle_new_message text es = some fr → fr.headline.length ≤ 200) := by
  constructor
  · intro text es h
    have hne : pyStrip text ≠ "" := by
      intro he
      rw [he] at h
      have h0 : (firstLineOf "").length = 0 := by decide
      omega
    refine ⟨⟨pySlice (firstLineOf (pyStrip text)) 200, extract_url es text⟩, ?_, ?_, ?_⟩
    · unfold handle_new_message
      rw [if_neg hne]
    · show (pySlice (firstLineOf (pyStrip text)) 200).length = 200
      rw [pySlice_length]
      omega
    · exact take_isPrefixOf ..
  · intro text es fr h
    unfold handle_new_message at h
    by_cases hne : pyStrip text = ""
    · rw [if_pos hne] at h
      exact absurd h (by simp)
    · rw [if_neg hne] at h
      have : fr = ⟨pySlice (firstLineOf (pyStrip text)) 200, extract_url es text⟩ := by
        cases h
        rfl
      rw [this]
      show (pySlice (firstLineOf (pyStrip text)) 200).length ≤ 200
      rw [pySlice_length]
      omega

set_option maxRecDepth 400000 in
/-- Claim C4 witness: a 201-character single-line message. -/
theorem headline_long_first_line_truncated_witness :
    ∃ fr, handle_new_message longLineText [] = some fr ∧ fr.headline.length = 200 ∧
      fr.headline.data.isPrefixOf (firstLineOf (pyStrip longLineText)).data = true :=
  headline_long_first_line_truncated.1 longLineText [] (by decide)

/-- Claim C9: a raw event whose text trims to the empty string makes the
handler return before any forward call: the extractor signals skip
(`none`), not an error. -/
theorem empty_text_skips (text : String) (es : List (Option String))
    (h : pyStrip text = "") :
    handle_new_message text es = none := by
  unfold handle_new_message
  rw [if_pos h]

/-- Claim C9 witness at the spec's example `"   "`. -/
theorem empty_text_skips_witness :
    handle_new_message "   " [] = none :=
  empty_text_skips "   " [] (by decide)

/-- Claim C8: the delivery call reports success exactly when the HTTP
response status is 200; any other status, and any transport failure, yields
`false` (the error is logged and swallowed — `send_to_server` is total and
issues a single POST, so no exception propagates and no retry happens). -/
theorem send_to_server_success_iff_200 (o : HttpOutcome) :
    send_to_server o = true ↔ ∃ body, o = HttpOutcome.resp 200 body := by
  cases o with
  | resp s b =>
    simp only [send_to_server, beq_iff_eq]
    constructor
    · intro h
      exact ⟨b, by rw [h]⟩
    · rintro ⟨body, hb⟩
      injection hb with h1 _
  | transportError m =>
    simp [send_to_server]

/-- Claim C5 counterexample: with entities `[url=""]` followed by
`[url="http://b.example"]` and text containing `https://t.example`, the code
picks the text-scanned URL.  Under the claim, the first entity carrying a
URL should win over the text scan — whether that is read as the first
entity with a `url` attribute (value `""`) or the first entity with a
non-empty URL (`"http://b.example"`), the code's choice differs from it. -/
theorem url_entity_precedence_cex :
    extract_url [some "", some "http://b.example"] "see https://t.example now" =
      some "https://t.example" ∧
    ("https://t.example" : String) ≠ "" ∧
    ("https://t.example" : String) ≠ "http://b.example" := by
  refine ⟨by decide, by decide, by decide⟩

/-- Claim C5 as amended: the entity loop inspects only the first entity
bearing a `url` attribute.  If that URL is non-empty it is chosen over any
text-scanned URL; if it is empty (falsy), the text scan proceeds and its
first `http://`/`https://` token, if any, overrides it; with no
url-bearing entity the result is exactly the text scan's (the substring
pre-check in the code does not change the outcome). -/
theorem url_precedence_amended :
    (∀ (es : List (Option String)) (text u : String),
      entityUrl es = some u → u ≠ "" → extract_url es text = some u) ∧
    (∀ (es : List (Option String)) (text : String),
      entityUrl es = none →
      extract_url es text = scanTextUrl (pySplitWs text)) ∧
    (∀ (es : List (Option String)) (text : String),
      entityUrl es = some "" →
      extract_url es text =
        (match scanTextUrl (pySplitWs text) with
         | some w => some w
         | none => some "")) := by
  refine ⟨?_, ?_, ?_⟩
  · intro es text u he hu
    unfold extract_url
    rw [he]
    simp [optTruthy, hu]
  · intro es text he
    unfold extract_url
    rw [he]
    by_cases hg : (pyInStr "http://" text || pyInStr "https://" text) = true
    · cases hscan : scanTextUrl (pySplitWs text) with
      | none => simp [optTruthy, hg, hscan]
      | some w => simp [optTruthy, hg, hscan]
    · have hscan : scanTextUrl (pySplitWs text) = none := by
        cases hs : scanTextUrl (pySplitWs text) with
        | none => rfl
        | some w => exact absurd (scan_implies_contains hs) hg
      rw [Bool.not_eq_true] at hg
      simp [optTruthy, hg, hscan]
  · intro es text he
    unfold extract_url
    rw [he]
    by_cases hg : (pyInStr "http://" text || pyInStr "https://" text) = true
    · cases hscan : scanTextUrl (pySplitWs text) with
      | none => simp [optTruthy, hg, hscan]
      | some w => simp [optTruthy, hg, hscan]
    · have hscan : scanTextUrl (pySplitWs text) = none := by
        cases hs : scanTextUrl (pySplitWs text) with
        | none => rfl
        | some w => exact absurd (scan_implies_contains hs) hg
      rw [Bool.not_eq_true] at hg
      simp [optTruthy, hg, hscan]

/-- Claim C5 (amended) witness: a non-empty entity URL beats a text URL that
appears earlier positionally. -/
theorem url_precedence_amended_witness :
    extract_url [none, some "http://a.example"] "https://first.example then text" =
      some "http://a.example" :=
  url_precedence_amended.1 [none, some "http://a.example"]
    "https://first.example then text" "http://a.example" (by decide) (by decide)

/-! ## Claim theorems: caption composer -/

set_option maxRecDepth 400000 in
/-- Claim C1 counterexample: a direct caption of 1030 characters whose
character 1020 is a space.  The natural length exceeds 1024, yet the
returned caption has length 1023, not 1024: the code keeps the first 1020
characters, strips the trailing space, and appends the 4-character
marker. -/
theorem caption_overflow_not_exact_1024 :
    1024 < (naturalResolved (some cexSpacedText) none).length ∧
    (resolve_caption (some cexSpacedText) none).map String.length = some 1023 := by
  exact ⟨by decide, by decide⟩

/-- Claim C1 as amended: for each composer path, when the natural
(pre-truncation) caption exceeds 1024 characters the returned caption ends
with `" ..."` and has length at most 1024 (namely 4 plus the length of the
whitespace-trimmed 1020-character prefix, which is exactly 1024 only when
that prefix ends in no whitespace). -/
theorem caption_overflow_bounded :
    (∀ d : JDict, 1024 < (naturalCaption d).length →
      (build_caption_from_json d).length ≤ 1024 ∧
      ∃ t, build_caption_from_json d = t ++ " ...") ∧
    (∀ (ct : Option String) (jd : Option JDict),
      1024 < (naturalResolved ct jd).length →
      ∃ c, resolve_caption ct jd = some c ∧ c.length ≤ 1024 ∧
        ∃ t, c = t ++ " ...") ∧
    (∀ (ca : String) (esc : Bool), 1024 < (naturalPost ca esc).length →
      (post_caption ca esc).length ≤ 1024 ∧
      ∃ t, post_caption ca esc = t ++ " ...") := by
  have key : ∀ s : String, 1024 < s.length →
      (truncateCaption s).length ≤ 1024 ∧ ∃ t, truncateCaption s = t ++ " ..." := by
    intro s h
    exact ⟨truncateCaption_length_le s,
      ⟨pyRstrip (pySlice s (1024 - 4)), truncateCaption_of_gt s h⟩⟩
  refine ⟨?_, ?_, ?_⟩
  · intro d h
    exact key _ h
  · intro ct jd h
    have hne : naturalResolved ct jd ≠ "" := by
      intro he
      rw [he] at h
      exact absurd h (by decide)
    refine ⟨truncateCaption (naturalResolved ct jd), ?_, key _ h⟩
    simp only [resolve_caption]
    rw [if_neg hne]
  · intro ca esc h
    exact key _ h

set_option maxRecDepth 400000 in
/-- Claim C1 (amended) witness: a record whose notes line alone makes the
natural caption 1107 characters; the built caption is exactly the
truncated-and-marked form. -/
theorem caption_overflow_bounded_witness :
    1024 < (naturalCaption longNotesRecord).length ∧
    ((build_caption_from_json longNotesRecord).length ≤ 1024 ∧
      ∃ t, build_caption_from_json longNotesRecord = t ++ " ...") :=
  ⟨by decide, caption_overflow_bounded.1 longNotesRecord (by decide)⟩

/-- Claim C2: the composed caption never exceeds 1024 characters on any
path (record-built, resolver-combined, or the post sender's direct
caption), and whenever the bound forces truncation the result is exactly
the first `1024 - 4` characters with trailing whitespace trimmed, followed
by the `" ..."` marker. -/
theorem caption_length_invariant :
    (∀ d : JDict, (build_caption_from_json d).length ≤ 1024) ∧
    (∀ (ct : Option String) (jd : Option JDict) (c : String),
      resolve_caption ct jd = some c → c.length ≤ 1024) ∧
    (∀ (ca : String) (esc : Bool), (post_caption ca esc).length ≤ 1024) ∧
    (∀ s : String, 1024 < s.length →
      truncateCaption s = pyRstrip (pySlice s (1024 - 4)) ++ " ...") := by
  refine ⟨?_, ?_, ?_, ?_⟩
  · intro d
    exact truncateCaption_length_le _
  · intro ct jd c h
    simp only [resolve_caption] at h
    by_cases he : naturalResolved ct jd = ""
    · rw [if_pos he] at h
      cases h
    · rw [if_neg he] at h
      cases h
      exact truncateCaption_length_le _
  · intro ca esc
    exact truncateCaption_length_le _
  · intro s h
    exact truncateCaption_of_gt s h

set_option maxRecDepth 400000 in
/-- Claim C2 witness: the truncation shape at a concrete 1030-character
caption, and the bound via the resolver at a concrete record. -/
theorem caption_length_invariant_witness :
    (1024 < longPlainText.length ∧
      truncateCaption longPlainText = pyRstrip (pySlice longPlainText (1024 - 4)) ++ " ...") ∧
    (resolve_caption (some "Race 7 results") none = some "Race 7 results" ∧
      ("Race 7 results" : String).length ≤ 1024) :=
  ⟨⟨by decide, caption_length_invariant.2.2.2 longPlainText (by decide)⟩,
   ⟨by decide, caption_length_invariant.2.1 (some "Race 7 results") none
      "Race 7 results" (by decide)⟩⟩

/-- Claim C7: for the payouts sub-record `{"win": 12.4, "place": 5,
"show": null}` (12.4 is the decimal `124 * 10 ^ (-1)`), `show` does not
parse (`float(None)` raises), the parsed values format as currency with two
decimals and thousands separators, and the composed line is exactly
`Payouts: W $12.40, P $5.00` with no trailing comma. -/
theorem payout_line_example :
    format_money (JVal.float 124 1) = some "$12.40" ∧
    format_money (JVal.int 5) = some "$5.00" ∧
    format_money JVal.null = none ∧
    build_caption_from_json
      [("payouts", JVal.obj [("win", JVal.float 124 1), ("place", JVal.int 5),
                             ("show", JVal.null)])] =
      "Payouts: W $12.40, P $5.00" := by
  exact ⟨by decide, by decide, by decide, by decide⟩

/-- Claim C6 counterexample: an entry whose position, number and name are
all absent but whose odds are present is NOT skipped — it produces the line
`(9-2)` — contradicting the claim's "skipped if and only if all three of
position, number, and name are absent". -/
theorem results_entry_odds_only_cex :
    resultLineOf (JVal.obj [("odds", JVal.str "9-2")]) = ["(9-2)"] ∧
    build_caption_from_json
      [("results", JVal.arr [JVal.obj [("odds", JVal.str "9-2")]])] =
      "Results:\n(9-2)" := by
  exact ⟨by decide, by decide⟩

/-- A one-or-zero-line if-then-else has length at most one. -/
theorem len_ite_singleton (c : Prop) [Decidable c] (x : String) :
    (if c then [x] else ([] : List String)).length ≤ 1 := by
  by_cases h : c <;> simp [h]

/-- Claim C6 as amended: in a present non-empty results sequence each entry
yields at most one line with missing sub-fields dropped, and a mapping
entry is skipped if and only if its alias-resolved position and number are
`None`, its name is falsy, AND its odds are falsy; non-mapping entries are
always skipped. -/
theorem results_entry_skip_iff :
    (∀ it : JDict,
      resultLineOf (JVal.obj it) = [] ↔
        (isNull (jor (jget it "position") (jor (jget it "pos") (jget it "rank"))) = true ∧
         isNull (jor (jget it "number") (jor (jget it "no") (jget it "post"))) = true ∧
         jtruthy (jget it "name") = false ∧
         jtruthy (jget it "odds") = false)) ∧
    (∀ v : JVal, isObjV v = false → resultLineOf v = []) ∧
    (∀ item : JVal, (resultLineOf item).length ≤ 1) ∧
    (∀ (d : JDict) (items : List JVal),
      jor (jget d "results") (jor (jget d "order") (jget d "finishers")) =
        JVal.arr items →
      items ≠ [] →
      resultsLines d = "Results:" :: (items.map resultLineOf).flatten) := by
  refine ⟨?_, ?_, ?_, ?_⟩
  · intro it
    cases h1 : isNull (jor (jget it "position") (jor (jget it "pos") (jget it "rank"))) <;>
    cases h2 : isNull (jor (jget it "number") (jor (jget it "no") (jget it "post"))) <;>
    cases h3 : jtruthy (jget it "name") <;>
    cases h4 : jtruthy (jget it "odds") <;>
      simp [resultLineOf, h1, h2, h3, h4]
  · intro v hv
    cases v with
    | obj it => exact absurd hv (by simp [isObjV])
    | null => rfl
    | bool b => rfl
    | int n => rfl
    | float m e => rfl
    | str s => rfl
    | arr l => rfl
  · intro item
    cases item with
    | obj it =>
      simp only [resultLineOf]
      exact len_ite_singleton _ _
    | null => simp [resultLineOf]
    | bool b => simp [resultLineOf]
    | int n => simp [resultLineOf]
    | float m e => simp [resultLineOf]
    | str s => simp [resultLineOf]
    | arr l => simp [resultLineOf]
  · intro d items hres hne
    have hie : items.isEmpty = false := by
      cases items with
      | nil => exact absurd rfl hne
      | cons a l => rfl
    simp [resultsLines, hres, hie]

/-- Claim C6 (amended) witness: an entry with only a name produces exactly
its one line. -/
theorem results_entry_skip_iff_witness :
    (resultLineOf (JVal.obj [("name", JVal.str "Ace")]) = [] ↔
      (isNull (jor (jget [("name", JVal.str "Ace")] "position")
          (jor (jget [("name", JVal.str "Ace")] "pos")
            (jget [("name", JVal.str "Ace")] "rank"))) = true ∧
       isNull (jor (jget [("name", JVal.str "Ace")] "number")
          (jor (jget [("name", JVal.str "Ace")] "no")
            (jget [("name", JVal.str "Ace")] "post"))) = true ∧
       jtruthy (jget [("name", JVal.str "Ace")] "name") = false ∧
       jtruthy (jget [("name", JVal.str "Ace")] "odds") = false)) ∧
    resultsLines [("results", JVal.arr [JVal.obj [("name", JVal.str "Ace")]])] =
      "Results:" ::
        (([JVal.obj [("name", JVal.str "Ace")]].map resultLineOf)).flatten :=
  ⟨results_entry_skip_iff.1 [("name", JVal.str "Ace")],
   results_entry_skip_iff.2.2.2 [("results", JVal.arr [JVal.obj [("name", JVal.str "Ace")]])]
     [JVal.obj [("name", JVal.str "Ace")]] rfl (by simp)⟩

/-! ## Claim C10: falsy presence versus absence -/

theorem jfind_append (l1 l2 : JDict) (k : String) :
    jfind (l1 ++ l2) k =
      (match jfind l2 k with
       | some w => some w
       | none => jfind l1 k) := by
  induction l1 with
  | nil =>
    simp only [List.nil_append, jfind]
    cases jfind l2 k <;> rfl
  | cons p rest ih =>
    obtain ⟨k0, v⟩ := p
    simp only [List.cons_append, jfind, List.append_eq]
    rw [ih]
    cases hl2 : jfind l2 k with
    | some w => rfl
    | none => rfl

theorem jfind_delK (d : JDict) (k k' : String) :
    jfind (delK d k) k' = if k' = k then none else jfind d k' := by
  induction d with
  | nil => simp [delK, jfind]
  | cons p rest ih =>
    obtain ⟨k0, v⟩ := p
    by_cases h0 : k0 = k
    · rw [delK, if_pos h0, ih]
      by_cases hk : k' = k
      · simp [hk]
      · rw [if_neg hk, if_neg hk, jfind]
        cases hj : jfind rest k' with
        | some w => rfl
        | none =>
          rw [if_neg]
          rw [h0]
          intro hh
          exact hk hh.symm
    · rw [delK, if_neg h0]
      simp only [jfind]
      rw [ih]
      by_cases hk : k' = k
      · subst hk
        simp [h0]
      · simp only [hk, if_false]

theorem jfind_setK (d : JDict) (k : String) (v : JVal) (k' : String) :
    jfind (setK d k v) k' = if k' = k then some v else jfind d k' := by
  unfold setK
  rw [jfind_append, jfind_delK]
  by_cases hk : k' = k
  · subst hk
    simp [jfind]
  · simp [jfind, hk, Ne.symm hk]

theorem jget_setK (d : JDict) (k : String) (v : JVal) (k' : String) :
    jget (setK d k v) k' = if k' = k then v else jget d k' := by
  unfold jget
  rw [jfind_setK]
  by_cases hk : k' = k <;> simp [hk]

theorem jget_delK (d : JDict) (k k' : String) :
    jget (delK d k) k' = if k' = k then JVal.null else jget d k' := by
  unfold jget
  rw [jfind_delK]
  by_cases hk : k' = k <;> simp [hk]

theorem jor_falsy {a : JVal} (h : jtruthy a = false) (b : JVal) : jor a b = b := by
  unfold jor
  rw [h]
  simp

theorem jor_truthy {a : JVal} (h : jtruthy a = true) (b : JVal) : jor a b = a := by
  unfold jor
  rw [h]
  simp

theorem jor_null (b : JVal) : jor JVal.null b = b := rfl

theorem jtruthy_jor (a b : JVal) : jtruthy (jor a b) = (jtruthy a || jtruthy b) := by
  cases h : jtruthy a
  · rw [jor_falsy h]
    simp
  · rw [jor_truthy h]
    simp [h]

theorem dictGetIf_jor_obj (X : JDict) (k : String) :
    dictGetIf (jor (JVal.obj X) (JVal.obj [])) k = jget X k := by
  cases X with
  | nil => rfl
  | cons p r =>
    rw [jor_truthy (by simp [jtruthy])]
    rfl

theorem jtruthy_null : jtruthy JVal.null = false := rfl


/-- Claim C10 counterexample: a winner sub-record `{"post": 0, "time":
"1:09.85"}` — the winner number 0 arrives through the final alias `post`,
survives the `or`-chain, and `is not None` emits `Winner: #0`, unlike the
absent-field record; and a results entry `{"position": 0, "name": "Ace"}` —
the claim says a position equal to 0 is still emitted, but `0 or None or
None` resolves to `None` and the position is dropped. -/
theorem falsy_winner_post_zero_cex :
    build_caption_from_json
      [("winner", JVal.obj [("post", JVal.int 0), ("time", JVal.str "1:09.85")])] =
      "Winner: #0  Time: 1:09.85" ∧
    build_caption_from_json [("winner", JVal.obj [("time", JVal.str "1:09.85")])] =
      "Time: 1:09.85" ∧
    build_caption_from_json
      [("results",
        JVal.arr [JVal.obj [("position", JVal.int 0), ("name", JVal.str "Ace")]])] =
      "Results:\nAce" := by
  exact ⟨by decide, by decide, by decide⟩

/-- Claim C10 as amended: a field present with a falsy value (0, `""`,
`False`) on the title, metadata, winner, personnel, or notes lines is
treated exactly like an absent field whenever the consuming test is
truthiness — shown here for the title (`race_name`), metadata (`date`),
notes, personnel (`jockey`), and the winner number via its first alias
`number`.  The exceptions are the `is not None` consumers applied to
alias-resolved values: a falsy non-None value in the FINAL alias (`post`
for the winner number, `rank`/`post` for a results entry's position/number)
survives the `or`-chain, so a 0 there is still emitted. -/
theorem falsy_presence_amended :
    (∀ (d : JDict) (v : JVal), jtruthy v = false →
      build_caption_from_json (setK d "race_name" v) =
        build_caption_from_json (delK d "race_name")) ∧
    (∀ (d : JDict) (v : JVal), jtruthy v = false →
      build_caption_from_json (setK d "date" v) =
        build_caption_from_json (delK d "date")) ∧
    (∀ (d : JDict) (v : JVal), jtruthy v = false →
      build_caption_from_json (setK d "notes" v) =
        build_caption_from_json (delK d "notes")) ∧
    (∀ (d : JDict) (v : JVal), jtruthy v = false →
      build_caption_from_json (setK d "jockey" v) =
        build_caption_from_json (delK d "jockey")) ∧
    (∀ (d w : JDict) (v : JVal), jtruthy v = false →
      build_caption_from_json (setK d "winner" (JVal.obj (setK w "number" v))) =
        build_caption_from_json (setK d "winner" (JVal.obj (delK w "number")))) ∧
    resultLineOf (JVal.obj [("rank", JVal.int 0)]) = ["0)"] ∧
    winnerLines
        [("winner", JVal.obj [("post", JVal.int 0), ("time", JVal.str "1:09.85")])] =
      ["Winner: #0  Time: 1:09.85"] := by
  refine ⟨?_, ?_, ?_, ?_, ?_, by decide, by decide⟩
  · intro d v hv
    simp [build_caption_from_json, naturalCaption, titleLines, metaLines, winnerLines,
      personnelLines, payoutLines, resultsLines, notesLines, winnerVal,
      jget_setK, jget_delK, jor_falsy hv, jor_null]
  · intro d v hv
    simp [build_caption_from_json, naturalCaption, titleLines, metaLines, winnerLines,
      personnelLines, payoutLines, resultsLines, notesLines, winnerVal,
      jget_setK, jget_delK, jor_falsy hv, jor_null]
  · intro d v hv
    simp [build_caption_from_json, naturalCaption, titleLines, metaLines, winnerLines,
      personnelLines, payoutLines, resultsLines, notesLines, winnerVal,
      jget_setK, jget_delK, jor_falsy hv, jor_null, hv, jtruthy_null]
  · intro d v hv
    cases hA : jtruthy (dictGetIf (jor (jget d "winner") (JVal.obj [])) "jockey") with
    | false =>
      simp [build_caption_from_json, naturalCaption, titleLines, metaLines, winnerLines,
        personnelLines, payoutLines, resultsLines, notesLines, winnerVal,
        jget_setK, jget_delK, jor_falsy hA, jor_falsy hv, jor_null, hv, jtruthy_null]
    | true =>
      simp [build_caption_from_json, naturalCaption, titleLines, metaLines, winnerLines,
        personnelLines, payoutLines, resultsLines, notesLines, winnerVal,
        jget_setK, jget_delK, jor_truthy hA, jor_null, hv, jtruthy_null]
  · intro d w v hv
    simp [build_caption_from_json, naturalCaption, titleLines, metaLines, winnerLines,
      personnelLines, payoutLines, resultsLines, notesLines, winnerVal,
      dictGetIf_jor_obj, jget_setK, jget_delK, jor_falsy hv, jor_null]

/-- Claim C10 (amended) witness: a falsy race name (`0`) next to a notes
field composes the same caption as no race name at all. -/
theorem falsy_presence_amended_witness :
    jtruthy (JVal.int 0) = false ∧
    build_caption_from_json (setK [("notes", JVal.str "ok")] "race_name" (JVal.int 0)) =
      build_caption_from_json (delK [("notes", JVal.str "ok")] "race_name") :=
  ⟨by decide, falsy_presence_amended.1 [("notes", JVal.str "ok")] (JVal.int 0) (by decide)⟩
